import Mathlib

/-!
Verification development for the `ecs` repository (a C++ entity-component-system
runtime).  The definitions below are a shallow embedding of the source files
under `src/ecs/`:

* `type_def.h`     → `kMaxComponents`, `kMaxEntities`, `Entity`, `Signature`,
                     `ComponentType`
* `component_list.h` → `ComponentList` and its operations
* `entity_manager.h` → `EntityManager` and its operations
* `component_manager.h` → `ComponentManager` and its operations
* `system.h` / `system_manager.h` → `System`, `SystemManager`
* `engine.h`       → `Engine` and the facade operations

Modelling conventions:
* C++ exceptions are modelled with `Option` (for operations whose state on
  failure is irrelevant or unchanged) and with `Except σ σ` for the `Engine`
  facade operations, where `Except.error s` carries the (possibly partially
  mutated) state left behind by a thrown exception — matching C++ semantics
  where members mutated before a `throw` stay mutated.
* `std::map` is modelled either as a function `Nat → Option α` (when the code
  never iterates over the map) or as an association list `List (Nat × α)`
  (when the code iterates, e.g. the manager maps).  `operator[]` reads that
  default-insert a value-initialised element are modelled faithfully by
  `fgetD` / `fgetA`, which return the (possibly extended) map.
* `Signature` (`std::bitset<64>`) is modelled as a `Nat` bit mask; the
  out-of-range check of `std::bitset::set` is modelled by `sigSet` returning
  `none` for a bit index `≥ kMaxComponents`.
* Machine integers are modelled as `Nat`.  The `uint16_t` wrap-around of
  `next_component_type_` is kept explicit (`% 65536`).  The `size_t`
  decrement `next_component_index_ - 1` in `ComponentList::Remove` is `Nat`
  subtraction: the guard of `Remove` together with the store invariant keeps
  `next_component_index_ ≥ 1` on that path, so no wrap can occur there.
* The fixed-size backing array `components_` is modelled as a total function
  `Nat → V`; array index bounds (a memory-layout concern) are not modelled.
-/

/-- `kMaxComponents` from `type_def.h`: width of a signature bit set. -/
def kMaxComponents : Nat := 64

/-- `kMaxEntities` from `type_def.h`: cap on the number of entities. -/
def kMaxEntities : Nat := 65535

/-- `Entity` from `type_def.h`: an entity is just an ID (`uint32_t`). -/
abbrev Entity : Type := Nat

/-- `Signature` from `type_def.h`: a 64-bit bit set, modelled as a `Nat`
bit mask. -/
abbrev Signature : Type := Nat

/-- `ComponentType` from `type_def.h`: a small integer ID (`uint16_t`) used
as a bit index into signatures. -/
abbrev ComponentType : Type := Nat

/-- Runtime type identity (`typeid(T).name()` keys of the manager maps),
abstracted as a natural number. -/
abbrev TypeKey : Type := Nat

/-- `std::bitset::set(i, b)`: returns the updated mask, or `none` when the
bit index is out of range (C++ throws `std::out_of_range`). -/
def sigSet (s : Signature) (i : Nat) (b : Bool) : Option Signature :=
  if i < kMaxComponents then
    some (if b then s ||| 2 ^ i else s &&& (2 ^ kMaxComponents - 1 - 2 ^ i))
  else none

/-- Point update of a function-backed map (`map[k] = v`). -/
def fset {α : Type} (m : Nat → Option α) (k : Nat) (v : α) : Nat → Option α :=
  fun k2 => if k2 = k then some v else m k2

/-- Point removal from a function-backed map (`map.erase(k)`). -/
def fdel {α : Type} (m : Nat → Option α) (k : Nat) : Nat → Option α :=
  fun k2 => if k2 = k then none else m k2

/-- `std::map::operator[]` read on a function-backed map: returns the stored
value, default-inserting `d` when the key is absent.  The second component is
the (possibly extended) map. -/
def fgetD {α : Type} (m : Nat → Option α) (k : Nat) (d : α) :
    α × (Nat → Option α) :=
  match m k with
  | some v => (v, m)
  | none => (d, fset m k d)

/-- Lookup in an association-list-backed map (`std::map::find`/`contains`). -/
def lookupA {α : Type} : List (Nat × α) → Nat → Option α
  | [], _ => none
  | (k, v) :: rest, k2 => if k2 = k then some v else lookupA rest k2

/-- `std::map::operator[]` assignment on an association-list-backed map:
overwrites the entry for `k`, inserting it if absent. -/
def msetA {α : Type} : List (Nat × α) → Nat → α → List (Nat × α)
  | [], k, v => [(k, v)]
  | (k0, v0) :: rest, k, v =>
    if k = k0 then (k, v) :: rest else (k0, v0) :: msetA rest k v

/-- `std::map::operator[]` read on an association-list-backed map:
default-inserts `d` when the key is absent and returns the resulting map. -/
def fgetA {α : Type} (m : List (Nat × α)) (k : Nat) (d : α) :
    α × List (Nat × α) :=
  match lookupA m k with
  | some v => (v, m)
  | none => (d, (k, d) :: m)

/-- `ComponentList<T>` from `component_list.h`: a dense component array with
bidirectional entity↔slot maps. -/
structure ComponentList (V : Type) where
  next_component_index_ : Nat
  components_ : Nat → V
  entity_to_component_index_ : Entity → Option Nat
  component_index_to_entity_ : Nat → Option Entity

/-- A freshly constructed `ComponentList`: empty maps, zero count, the
backing array value-initialised. -/
def clInit {V : Type} [Inhabited V] : ComponentList V :=
  { next_component_index_ := 0
    components_ := fun _ => default
    entity_to_component_index_ := fun _ => none
    component_index_to_entity_ := fun _ => none }

/-- `ComponentList::Insert`: stores the component in the next free slot and
records the entity↔slot mapping; fails (`none`, C++ throws) when the entity
is already in the list. -/
def ComponentList.Insert {V : Type} (entity : Entity) (component : V)
    (l : ComponentList V) : Option (ComponentList V) :=
  if (l.entity_to_component_index_ entity).isSome then none
  else
    some
      { next_component_index_ := l.next_component_index_ + 1
        components_ := fun i =>
          if i = l.next_component_index_ then component else l.components_ i
        entity_to_component_index_ :=
          fset l.entity_to_component_index_ entity l.next_component_index_
        component_index_to_entity_ :=
          fset l.component_index_to_entity_ l.next_component_index_ entity }

/-- `ComponentList::Remove`: overwrites the removed entity's slot with the
data of the last slot, remaps the last slot's entity, erases the stale map
entries and decrements the count; fails (`none`, C++ throws) when the entity
is not in the list.  The two `fgetD` reads model the `operator[]` accesses
of the source. -/
def ComponentList.Remove {V : Type} (remove_entity : Entity)
    (l : ComponentList V) : Option (ComponentList V) :=
  if (l.entity_to_component_index_ remove_entity).isSome then
    let end_component_idx := l.next_component_index_ - 1
    let p1 := fgetD l.entity_to_component_index_ remove_entity 0
    let remove_component_idx := p1.1
    let p2 := fgetD l.component_index_to_entity_ end_component_idx 0
    let end_entity := p2.1
    some
      { next_component_index_ := l.next_component_index_ - 1
        components_ := fun i =>
          if i = remove_component_idx then l.components_ end_component_idx
          else l.components_ i
        entity_to_component_index_ :=
          fdel (fset p1.2 end_entity remove_component_idx) remove_entity
        component_index_to_entity_ :=
          fdel (fset p2.2 remove_component_idx end_entity) end_component_idx }
  else none

/-- `ComponentList::Get`: entity→slot lookup followed by an array read;
fails (`none`, C++ throws) when the entity is not in the list. -/
def ComponentList.Get {V : Type} (entity : Entity) (l : ComponentList V) :
    Option V :=
  match l.entity_to_component_index_ entity with
  | none => none
  | some idx => some (l.components_ idx)

/-- `ComponentList::EntityWasDestroyed`: removes the entity if present,
silently no-ops otherwise. -/
def ComponentList.EntityWasDestroyed {V : Type} (entity : Entity)
    (l : ComponentList V) : ComponentList V :=
  if (l.entity_to_component_index_ entity).isSome then
    (ComponentList.Remove entity l).getD l
  else l

/-- `EntityManager` from `entity_manager.h`: a FIFO pool of available entity
IDs and a fixed-size signature array (modelled as a total function, only ever
accessed below `kMaxEntities`). -/
structure EntityManager where
  available_entities_ : List Entity
  entity_signatures_ : Entity → Signature

/-- `EntityManager::EntityManager`: pre-allocates the queue with all entity
IDs `0 .. kMaxEntities - 1`; signatures value-initialise to the empty bit
set. -/
def emInit : EntityManager :=
  { available_entities_ := List.range kMaxEntities
    entity_signatures_ := fun _ => 0 }

/-- `EntityManager::CreateEntity`: pops the front of the queue; fails
(`none`, C++ throws "Maximum number of living entities exceeded") when the
queue is empty. -/
def EntityManager.CreateEntity (m : EntityManager) :
    Option (Entity × EntityManager) :=
  match m.available_entities_ with
  | [] => none
  | e :: rest => some (e, { m with available_entities_ := rest })

/-- `EntityManager::CheckEntityOutOfBound`: true exactly when the C++ helper
throws, i.e. when `entity ≥ kMaxEntities`. -/
def EntityManager.CheckEntityOutOfBound (entity : Entity) : Bool :=
  kMaxEntities ≤ entity

/-- `EntityManager::DestroyEntity`: bound check, then resets the entity's
signature and pushes the ID back onto the queue. -/
def EntityManager.DestroyEntity (entity : Entity) (m : EntityManager) :
    Option EntityManager :=
  if EntityManager.CheckEntityOutOfBound entity then none
  else
    some
      { available_entities_ := m.available_entities_ ++ [entity]
        entity_signatures_ := fun e2 =>
          if e2 = entity then 0 else m.entity_signatures_ e2 }

/-- `EntityManager::SetSignature`: bound check, then stores the signature. -/
def EntityManager.SetSignature (entity : Entity) (signature : Signature)
    (m : EntityManager) : Option EntityManager :=
  if EntityManager.CheckEntityOutOfBound entity then none
  else
    some
      { m with
        entity_signatures_ := fun e2 =>
          if e2 = entity then signature else m.entity_signatures_ e2 }

/-- `EntityManager::GetSignature`: bound check, then reads the signature. -/
def EntityManager.GetSignature (entity : Entity) (m : EntityManager) :
    Option Signature :=
  if EntityManager.CheckEntityOutOfBound entity then none
  else some (m.entity_signatures_ entity)

/-- `ComponentManager` from `component_manager.h`: type-keyed maps of
component-type IDs and component stores, plus the next free type ID. -/
structure ComponentManager (V : Type) where
  component_types_ : List (TypeKey × ComponentType)
  component_lists_ : List (TypeKey × ComponentList V)
  next_component_type_ : Nat

/-- A freshly constructed `ComponentManager`. -/
def cmInit {V : Type} : ComponentManager V :=
  { component_types_ := [], component_lists_ := [], next_component_type_ := 0 }

/-- `ComponentManager::RegisterComponent`: a no-op (with a warning) when the
type is already registered; otherwise allocates a fresh store and assigns
the next component-type ID (`uint16_t` increment, hence `% 65536`).  Note
the source performs no check against `kMaxComponents`. -/
def ComponentManager.RegisterComponent {V : Type} [Inhabited V] (t : TypeKey)
    (m : ComponentManager V) : ComponentManager V :=
  if (lookupA m.component_types_ t).isSome then m
  else
    { component_types_ := msetA m.component_types_ t m.next_component_type_
      component_lists_ := msetA m.component_lists_ t clInit
      next_component_type_ := (m.next_component_type_ + 1) % 65536 }

/-- `ComponentManager::GetComponentType`: fails (`none`, C++ throws) when
the type was never registered. -/
def ComponentManager.GetComponentType {V : Type} (t : TypeKey)
    (m : ComponentManager V) : Option ComponentType :=
  lookupA m.component_types_ t

/-- `ComponentManager::AddComponent`: auto-registers the type if unseen,
then inserts into that type's store via `GetComponentList`.  `Except.error`
carries the manager state at the throw point (the auto-registration, if it
happened, is kept — matching the C++ member state after the exception). -/
def ComponentManager.AddComponent {V : Type} [Inhabited V] (t : TypeKey)
    (entity : Entity) (component : V) (m : ComponentManager V) :
    Except (ComponentManager V) (ComponentManager V) :=
  let m1 :=
    if (lookupA m.component_types_ t).isSome then m
    else ComponentManager.RegisterComponent t m
  match lookupA m1.component_lists_ t with
  | none => Except.error m1
  | some l =>
    match ComponentList.Insert entity component l with
    | none => Except.error m1
    | some l2 =>
      Except.ok { m1 with component_lists_ := msetA m1.component_lists_ t l2 }

/-- `ComponentManager::RemoveComponent`: routes to the store for the type;
fails when the store does not exist or the entity is not in it (both throws
happen before any mutation, so the error state is the input state). -/
def ComponentManager.RemoveComponent {V : Type} (t : TypeKey)
    (entity : Entity) (m : ComponentManager V) :
    Except (ComponentManager V) (ComponentManager V) :=
  match lookupA m.component_lists_ t with
  | none => Except.error m
  | some l =>
    match ComponentList.Remove entity l with
    | none => Except.error m
    | some l2 =>
      Except.ok { m with component_lists_ := msetA m.component_lists_ t l2 }

/-- `ComponentManager::GetComponent`: routes a `Get` to the store for the
type. -/
def ComponentManager.GetComponent {V : Type} (t : TypeKey) (entity : Entity)
    (m : ComponentManager V) : Option V :=
  match lookupA m.component_lists_ t with
  | none => none
  | some l => ComponentList.Get entity l

/-- `ComponentManager::EntityWasDestroyed`: broadcasts the tolerant destroy
hook to every component store. -/
def ComponentManager.EntityWasDestroyed {V : Type} (entity : Entity)
    (m : ComponentManager V) : ComponentManager V :=
  { m with
    component_lists_ :=
      m.component_lists_.map
        (fun p => (p.1, ComponentList.EntityWasDestroyed entity p.2)) }

/-- `System` from `system.h`: its only state is the set of entities
currently compatible with the system. -/
structure System where
  entities_ : Finset Entity

/-- `SystemManager` from `system_manager.h`: type-keyed maps of system
instances and of system signatures. -/
structure SystemManager where
  systems_ : List (TypeKey × System)
  system_signatures_ : List (TypeKey × Signature)

/-- A freshly constructed `SystemManager`. -/
def smInit : SystemManager :=
  { systems_ := [], system_signatures_ := [] }

/-- `SystemManager::RegisterSystem`: fails (`none`, C++ throws) on duplicate
registration; otherwise stores the system instance keyed by type.  The
default-constructed case passes a system with an empty entity set. -/
def SystemManager.RegisterSystem (t : TypeKey) (s : System)
    (sm : SystemManager) : Option SystemManager :=
  if (lookupA sm.systems_ t).isSome then none
  else some { sm with systems_ := msetA sm.systems_ t s }

/-- `SystemManager::SetSystemSignature`: fails (`none`, C++ throws) when the
system type is not registered; otherwise records the signature.  It does not
touch any system's entity set. -/
def SystemManager.SetSystemSignature (t : TypeKey) (signature : Signature)
    (sm : SystemManager) : Option SystemManager :=
  if (lookupA sm.systems_ t).isSome then
    some
      { sm with
        system_signatures_ := msetA sm.system_signatures_ t signature }
  else none

/-- `SystemManager::EntityWasDestroyed`: erases the entity from every
system's entity set. -/
def SystemManager.EntityWasDestroyed (entity : Entity)
    (sm : SystemManager) : SystemManager :=
  { sm with
    systems_ :=
      sm.systems_.map (fun p => (p.1, { entities_ := p.2.entities_.erase entity })) }

/-- Loop body of `SystemManager::EntitySignatureChanged`: walks the systems
map; for each system reads its signature via `operator[]` (default-inserting
an empty signature, faithfully threaded through the signature map), then
inserts the entity into the system's set when
`(entity_signature AND system_signature) == system_signature` and erases it
otherwise. -/
def escGo (entity : Entity) (entity_signature : Signature) :
    List (TypeKey × System) → List (TypeKey × Signature) →
    List (TypeKey × System) × List (TypeKey × Signature)
  | [], sigs => ([], sigs)
  | (t, s) :: rest, sigs =>
    let p := fgetA sigs t 0
    let system_signature := p.1
    let s2 : System :=
      if entity_signature &&& system_signature = system_signature then
        { entities_ := insert entity s.entities_ }
      else { entities_ := s.entities_.erase entity }
    let q := escGo entity entity_signature rest p.2
    ((t, s2) :: q.1, q.2)

/-- `SystemManager::EntitySignatureChanged`: recomputes every system's
membership of `entity` against the new signature. -/
def SystemManager.EntitySignatureChanged (entity : Entity)
    (entity_signature : Signature) (sm : SystemManager) : SystemManager :=
  let p := escGo entity entity_signature sm.systems_ sm.system_signatures_
  { systems_ := p.1, system_signatures_ := p.2 }

/-- `Engine` from `engine.h`: the facade owning the three managers. -/
structure Engine (V : Type) where
  entity_manager_ : EntityManager
  component_manager_ : ComponentManager V
  system_manager_ : SystemManager

/-- The freshly constructed engine singleton. -/
def engineInit {V : Type} : Engine V :=
  { entity_manager_ := emInit
    component_manager_ := cmInit
    system_manager_ := smInit }

/-- `Engine::CreateEntity`: delegates to the entity manager. -/
def Engine.CreateEntity {V : Type} (g : Engine V) :
    Option (Entity × Engine V) :=
  match EntityManager.CreateEntity g.entity_manager_ with
  | none => none
  | some (e, em2) => some (e, { g with entity_manager_ := em2 })

/-- `Engine::DestroyEntity`: entity-manager destroy, then the destroy
broadcasts to the component manager and the system manager.  On failure of
the entity-manager destroy the exception propagates before any broadcast. -/
def Engine.DestroyEntity {V : Type} (entity : Entity) (g : Engine V) :
    Except (Engine V) (Engine V) :=
  match EntityManager.DestroyEntity entity g.entity_manager_ with
  | none => Except.error g
  | some em2 =>
    Except.ok
      { entity_manager_ := em2
        component_manager_ :=
          ComponentManager.EntityWasDestroyed entity g.component_manager_
        system_manager_ :=
          SystemManager.EntityWasDestroyed entity g.system_manager_ }

/-- `Engine::AddComponent`: component-manager insert, read back the
component-type bit, fetch the entity's signature, set the bit, write the
signature back, broadcast the new signature.  Every `Except.error` carries
the engine state at the throw point: mutations already performed (in
particular the store insert) are kept. -/
def Engine.AddComponent {V : Type} [Inhabited V] (t : TypeKey)
    (entity : Entity) (component : V) (g : Engine V) :
    Except (Engine V) (Engine V) :=
  match ComponentManager.AddComponent t entity component g.component_manager_ with
  | Except.error cm2 => Except.error { g with component_manager_ := cm2 }
  | Except.ok cm2 =>
    match ComponentManager.GetComponentType t cm2 with
    | none => Except.error { g with component_manager_ := cm2 }
    | some component_id =>
      match EntityManager.GetSignature entity g.entity_manager_ with
      | none => Except.error { g with component_manager_ := cm2 }
      | some entity_signature =>
        match sigSet entity_signature component_id true with
        | none => Except.error { g with component_manager_ := cm2 }
        | some sig2 =>
          match EntityManager.SetSignature entity sig2 g.entity_manager_ with
          | none => Except.error { g with component_manager_ := cm2 }
          | some em2 =>
            Except.ok
              { entity_manager_ := em2
                component_manager_ := cm2
                system_manager_ :=
                  SystemManager.EntitySignatureChanged entity sig2
                    g.system_manager_ }

/-- `Engine::RemoveComponent`: mirror of `Engine.AddComponent` with the bit
cleared. -/
def Engine.RemoveComponent {V : Type} (t : TypeKey) (entity : Entity)
    (g : Engine V) : Except (Engine V) (Engine V) :=
  match ComponentManager.RemoveComponent t entity g.component_manager_ with
  | Except.error cm2 => Except.error { g with component_manager_ := cm2 }
  | Except.ok cm2 =>
    match ComponentManager.GetComponentType t cm2 with
    | none => Except.error { g with component_manager_ := cm2 }
    | some component_id =>
      match EntityManager.GetSignature entity g.entity_manager_ with
      | none => Except.error { g with component_manager_ := cm2 }
      | some entity_signature =>
        match sigSet entity_signature component_id false with
        | none => Except.error { g with component_manager_ := cm2 }
        | some sig2 =>
          match EntityManager.SetSignature entity sig2 g.entity_manager_ with
          | none => Except.error { g with component_manager_ := cm2 }
          | some em2 =>
            Except.ok
              { entity_manager_ := em2
                component_manager_ := cm2
                system_manager_ :=
                  SystemManager.EntitySignatureChanged entity sig2
                    g.system_manager_ }

/-- `Engine::HasComponent`: builds the single-bit signature for the type
(this throws when the type is unregistered, before the entity's signature is
ever read) and intersects it with the entity's signature. -/
def Engine.HasComponent {V : Type} (t : TypeKey) (entity : Entity)
    (g : Engine V) : Option Bool :=
  match ComponentManager.GetComponentType t g.component_manager_ with
  | none => none
  | some component_id =>
    match sigSet 0 component_id true with
    | none => none
    | some component_signature =>
      match EntityManager.GetSignature entity g.entity_manager_ with
      | none => none
      | some entity_signature =>
        some
          (component_signature &&& entity_signature = component_signature :
            Bool)

/-- `Engine::GetComponent`: delegates to the component manager. -/
def Engine.GetComponent {V : Type} (t : TypeKey) (entity : Entity)
    (g : Engine V) : Option V :=
  ComponentManager.GetComponent t entity g.component_manager_

/-- `Engine::SetSystemSignature`: delegates to the system manager. -/
def Engine.SetSystemSignature {V : Type} (t : TypeKey)
    (signature : Signature) (g : Engine V) : Option (Engine V) :=
  match SystemManager.SetSystemSignature t signature g.system_manager_ with
  | none => none
  | some sm2 => some { g with system_manager_ := sm2 }

/-- An abstract operation on a component store: one `Insert` or one
`Remove` call. -/
inductive CLOp (V : Type) where
  | ins (entity : Entity) (component : V) : CLOp V
  | rem (entity : Entity) : CLOp V

/-- Runs a sequence of store operations; `none` as soon as one of them
throws. -/
def applyOps {V : Type} : List (CLOp V) → ComponentList V →
    Option (ComponentList V)
  | [], l => some l
  | CLOp.ins e v :: rest, l =>
    match ComponentList.Insert e v l with
    | none => none
    | some l2 => applyOps rest l2
  | CLOp.rem e :: rest, l =>
    match ComponentList.Remove e l with
    | none => none
    | some l2 => applyOps rest l2

/-- Number of `Insert` operations in a sequence. -/
def countIns {V : Type} : List (CLOp V) → Nat
  | [] => 0
  | CLOp.ins _ _ :: rest => countIns rest + 1
  | CLOp.rem _ :: rest => countIns rest

/-- Number of `Remove` operations in a sequence. -/
def countRem {V : Type} : List (CLOp V) → Nat
  | [] => 0
  | CLOp.ins _ _ :: rest => countRem rest
  | CLOp.rem _ :: rest => countRem rest + 1

/-- The dense-packing invariant of a component store: the slot→entity map is
defined exactly on `[0, count)`, and the two index maps are mutual
inverses. -/
def StoreInv {V : Type} (l : ComponentList V) : Prop :=
  (∀ i, (l.component_index_to_entity_ i).isSome ↔
      i < l.next_component_index_) ∧
  (∀ e i, l.entity_to_component_index_ e = some i →
      l.component_index_to_entity_ i = some e) ∧
  (∀ i e, l.component_index_to_entity_ i = some e →
      l.entity_to_component_index_ e = some i)

theorem storeInv_clInit {V : Type} [Inhabited V] :
    StoreInv (clInit : ComponentList V) :=
  ⟨fun i => by simp [clInit], fun e i h => by simp [clInit] at h,
    fun i e h => by simp [clInit] at h⟩

/-- Unfolding equation for a successful `Insert`. -/
theorem insert_eq {V : Type} {l : ComponentList V} {e : Entity} {v : V}
    (hre : l.entity_to_component_index_ e = none) :
    ComponentList.Insert e v l =
      some
        { next_component_index_ := l.next_component_index_ + 1
          components_ := fun i =>
            if i = l.next_component_index_ then v else l.components_ i
          entity_to_component_index_ :=
            fset l.entity_to_component_index_ e l.next_component_index_
          component_index_to_entity_ :=
            fset l.component_index_to_entity_ l.next_component_index_ e } := by
  simp [ComponentList.Insert, hre]

/-- Unfolding equation for a successful `Remove`, given where the removed
entity and the last slot's entity sit. -/
theorem remove_eq {V : Type} {l : ComponentList V} {e : Entity} {ri : Nat}
    {ee : Entity} (hre : l.entity_to_component_index_ e = some ri)
    (hee : l.component_index_to_entity_ (l.next_component_index_ - 1) =
      some ee) :
    ComponentList.Remove e l =
      some
        { next_component_index_ := l.next_component_index_ - 1
          components_ := fun i =>
            if i = ri then l.components_ (l.next_component_index_ - 1)
            else l.components_ i
          entity_to_component_index_ :=
            fdel (fset l.entity_to_component_index_ ee ri) e
          component_index_to_entity_ :=
            fdel (fset l.component_index_to_entity_ ri ee)
              (l.next_component_index_ - 1) } := by
  simp [ComponentList.Remove, fgetD, hre, hee]

/-- A successful `Insert` preserves the packing invariant and increments the
count. -/
theorem insert_inv {V : Type} {l l2 : ComponentList V} {e : Entity} {v : V}
    (hinv : StoreInv l) (h : ComponentList.Insert e v l = some l2) :
    StoreInv l2 ∧
      l2.next_component_index_ = l.next_component_index_ + 1 := by
  obtain ⟨hocc, hfwd, hbwd⟩ := hinv
  cases hre : l.entity_to_component_index_ e with
  | some j => simp [ComponentList.Insert, hre] at h
  | none =>
    rw [insert_eq hre] at h
    obtain rfl := (Option.some.injEq _ _).mp h
    refine ⟨⟨?_, ?_, ?_⟩, rfl⟩
    · intro i
      by_cases hi : i = l.next_component_index_
      · simp [fset, hi]
      · simp only [fset, if_neg hi]
        rw [hocc]
        omega
    · intro e2 i h2
      by_cases he2 : e2 = e
      · subst he2
        simp only [fset, if_pos rfl] at h2
        obtain rfl := (Option.some.injEq _ _).mp h2
        simp [fset]
      · simp only [fset, if_neg he2] at h2
        have h3 := hfwd e2 i h2
        have hi : i ≠ l.next_component_index_ := by
          intro hcon
          have : i < l.next_component_index_ := (hocc i).mp (by simp [h3])
          omega
        simp only [fset, if_neg hi]
        exact h3
    · intro i e2 h2
      by_cases hi : i = l.next_component_index_
      · simp only [fset, if_pos hi] at h2
        obtain rfl := (Option.some.injEq _ _).mp h2
        simp [fset, hi]
      · simp only [fset, if_neg hi] at h2
        have h3 := hbwd i e2 h2
        have he2 : e2 ≠ e := by
          intro hcon
          rw [hcon, hre] at h3
          exact Option.noConfusion h3
        simp only [fset, if_neg he2]
        exact h3

/-- A successful `Remove` preserves the packing invariant and decrements the
count. -/
theorem remove_inv {V : Type} {l l2 : ComponentList V} {e : Entity}
    (hinv : StoreInv l) (h : ComponentList.Remove e l = some l2) :
    StoreInv l2 ∧
      l2.next_component_index_ + 1 = l.next_component_index_ := by
  obtain ⟨hocc, hfwd, hbwd⟩ := hinv
  cases hre : l.entity_to_component_index_ e with
  | none => simp [ComponentList.Remove, hre] at h
  | some ri =>
    have hfe : l.component_index_to_entity_ ri = some e := hfwd e ri hre
    have hri : ri < l.next_component_index_ :=
      (hocc ri).mp (by simp [hfe])
    have hend : (l.component_index_to_entity_
        (l.next_component_index_ - 1)).isSome := by
      rw [hocc]; omega
    obtain ⟨ee, hee⟩ := Option.isSome_iff_exists.mp hend
    have heeb : l.entity_to_component_index_ ee =
        some (l.next_component_index_ - 1) := hbwd _ _ hee
    rw [remove_eq hre hee] at h
    obtain rfl := Option.some.inj h
    refine ⟨⟨?_, ?_, ?_⟩,
      by show l.next_component_index_ - 1 + 1 = l.next_component_index_; omega⟩
    · -- the slot→entity map is defined exactly on the shrunk range
      intro i
      show (fdel (fset l.component_index_to_entity_ ri ee)
          (l.next_component_index_ - 1) i).isSome = true ↔
        i < l.next_component_index_ - 1
      by_cases hi1 : i = l.next_component_index_ - 1
      · simp [fdel, hi1]
      · by_cases hi2 : i = ri
        · simp only [fdel, if_neg hi1, fset, if_pos hi2, Option.isSome_some,
            true_iff]
          omega
        · simp only [fdel, if_neg hi1, fset, if_neg hi2]
          rw [hocc]
          omega
    · -- entity→slot still maps into slot→entity
      intro e2 i h2
      show fdel (fset l.component_index_to_entity_ ri ee)
        (l.next_component_index_ - 1) i = some e2
      by_cases hd : e2 = e
      · simp [fdel, hd] at h2
      · simp only [fdel, if_neg hd] at h2
        by_cases he2 : e2 = ee
        · simp only [fset, if_pos he2] at h2
          obtain rfl := Option.some.inj h2
          have hri2 : ri ≠ l.next_component_index_ - 1 := by
            intro hcon
            rw [hcon, hee] at hfe
            exact hd (he2.trans (Option.some.inj hfe))
          simp [fdel, fset, hri2, he2]
        · simp only [fset, if_neg he2] at h2
          have h3 := hfwd e2 i h2
          have hi1 : i ≠ l.next_component_index_ - 1 := by
            intro hcon
            rw [hcon, hee] at h3
            exact he2 (Option.some.inj h3).symm
          have hi2 : i ≠ ri := by
            intro hcon
            rw [hcon, hfe] at h3
            exact hd (Option.some.inj h3).symm
          simp only [fdel, if_neg hi1, fset, if_neg hi2]
          exact h3
    · -- slot→entity still maps back into entity→slot
      intro i e2 h2
      show fdel (fset l.entity_to_component_index_ ee ri) e e2 = some i
      by_cases hi1 : i = l.next_component_index_ - 1
      · simp [fdel, hi1] at h2
      · simp only [fdel, if_neg hi1] at h2
        by_cases hi2 : i = ri
        · simp only [fset, if_pos hi2] at h2
          obtain rfl := Option.some.inj h2
          have hne : ee ≠ e := by
            intro hcon
            rw [hcon, hre] at heeb
            exact hi1 (hi2.trans (Option.some.inj heeb))
          simp [fdel, fset, hne, hi2]
        · simp only [fset, if_neg hi2] at h2
          have h3 := hbwd i e2 h2
          have hd : e2 ≠ e := by
            intro hcon
            rw [hcon, hre] at h3
            exact hi2 (Option.some.inj h3).symm
          have he2 : e2 ≠ ee := by
            intro hcon
            rw [hcon, heeb] at h3
            exact hi1 (Option.some.inj h3).symm
          simp only [fdel, if_neg hd, fset, if_neg he2]
          exact h3

/-- Running any successful sequence of store operations from an invariant
state keeps the invariant, and the count changes by the insert/remove
balance. -/
theorem applyOps_inv {V : Type} :
    ∀ (ops : List (CLOp V)) (l l2 : ComponentList V),
      StoreInv l → applyOps ops l = some l2 →
      StoreInv l2 ∧
        l2.next_component_index_ + countRem ops =
          l.next_component_index_ + countIns ops := by
  intro ops
  induction ops with
  | nil =>
    intro l l2 hinv h
    simp [applyOps] at h
    subst h
    simp [countIns, countRem, hinv]
  | cons op rest ih =>
    intro l l2 hinv h
    cases op with
    | ins e v =>
      cases hstep : ComponentList.Insert e v l with
      | none => simp [applyOps, hstep] at h
      | some lmid =>
        simp only [applyOps, hstep] at h
        obtain ⟨hinv2, hn⟩ := insert_inv hinv hstep
        obtain ⟨hinv3, hn2⟩ := ih lmid l2 hinv2 h
        refine ⟨hinv3, ?_⟩
        simp only [countIns, countRem]
        omega
    | rem e =>
      cases hstep : ComponentList.Remove e l with
      | none => simp [applyOps, hstep] at h
      | some lmid =>
        simp only [applyOps, hstep] at h
        obtain ⟨hinv2, hn⟩ := remove_inv hinv hstep
        obtain ⟨hinv3, hn2⟩ := ih lmid l2 hinv2 h
        refine ⟨hinv3, ?_⟩
        simp only [countIns, countRem]
        omega

/-- C1: for every component store and every successful sequence of `Insert`
and `Remove` operations starting from a fresh store, the occupied slots are
exactly the contiguous range `[0, count)` where
`count = number of inserts − number of removes` (stated without truncated
subtraction as `count + removes = inserts`), the entity→slot and slot→entity
maps are mutual inverses over that range, and every stored entity maps to a
unique slot inside the range. -/
theorem c1_packing_invariant {V : Type} [Inhabited V] (ops : List (CLOp V))
    (l : ComponentList V)
    (h : applyOps ops (clInit : ComponentList V) = some l) :
    (l.next_component_index_ + countRem ops = countIns ops) ∧
    (∀ i, (l.component_index_to_entity_ i).isSome ↔
        i < l.next_component_index_) ∧
    (∀ e i, l.entity_to_component_index_ e = some i ↔
        l.component_index_to_entity_ i = some e) ∧
    (∀ e i, l.entity_to_component_index_ e = some i →
        i < l.next_component_index_) ∧
    (∀ e1 e2 i, l.entity_to_component_index_ e1 = some i →
        l.entity_to_component_index_ e2 = some i → e1 = e2) := by
  obtain ⟨⟨hocc, hfwd, hbwd⟩, hcount⟩ := applyOps_inv ops _ l storeInv_clInit h
  refine ⟨?_, hocc, ?_, ?_, ?_⟩
  · simpa [clInit] using hcount
  · intro e i
    exact ⟨hfwd e i, hbwd i e⟩
  · intro e i h2
    exact (hocc i).mp (by simp [hfwd e i h2])
  · intro e1 e2 i h1 h2
    have g1 := hfwd e1 i h1
    have g2 := hfwd e2 i h2
    rw [g1] at g2
    exact Option.some.inj g2

/-- The concrete operation sequence used by the C1 witness. -/
def opsW : List (CLOp Nat) :=
  [CLOp.ins 3 10, CLOp.ins 7 20, CLOp.rem 3]

/-- The store reached by the C1 witness sequence. -/
def lW : ComponentList Nat :=
  (applyOps opsW (clInit : ComponentList Nat)).getD clInit

/-- Witness for C1: the packing invariant holds after the concrete sequence
insert 3, insert 7, remove 3. -/
theorem c1_packing_invariant_witness :
    applyOps opsW (clInit : ComponentList Nat) = some lW ∧
      ((lW.next_component_index_ + countRem opsW = countIns opsW) ∧
      (∀ i, (lW.component_index_to_entity_ i).isSome ↔
          i < lW.next_component_index_) ∧
      (∀ e i, lW.entity_to_component_index_ e = some i ↔
          lW.component_index_to_entity_ i = some e) ∧
      (∀ e i, lW.entity_to_component_index_ e = some i →
          i < lW.next_component_index_) ∧
      (∀ e1 e2 i, lW.entity_to_component_index_ e1 = some i →
          lW.entity_to_component_index_ e2 = some i → e1 = e2)) :=
  ⟨rfl, c1_packing_invariant opsW lW rfl⟩

/-- C7: removing an entity `e1` that does not occupy the last slot of a
store holding at least two entities copies the last slot's component value
into `e1`'s vacated slot, remaps the entity `e2` that owned the last slot to
`e1`'s old slot index, decrements the count by one, and a subsequent `Get`
for the relocated entity `e2` still returns its original component value. -/
theorem c7_swap_remove {V : Type} (l l2 : ComponentList V) (e1 e2 : Entity)
    (i : Nat)
    (h1 : l.entity_to_component_index_ e1 = some i)
    (h2 : l.component_index_to_entity_ (l.next_component_index_ - 1) =
      some e2)
    (h3 : l.entity_to_component_index_ e2 =
      some (l.next_component_index_ - 1))
    (h4 : i ≠ l.next_component_index_ - 1)
    (hr : ComponentList.Remove e1 l = some l2) :
    l2.next_component_index_ = l.next_component_index_ - 1 ∧
    l2.components_ i = l.components_ (l.next_component_index_ - 1) ∧
    l2.entity_to_component_index_ e2 = some i ∧
    l2.component_index_to_entity_ i = some e2 ∧
    ComponentList.Get e2 l2 =
      some (l.components_ (l.next_component_index_ - 1)) ∧
    ComponentList.Get e2 l2 = ComponentList.Get e2 l := by
  have hne : e2 ≠ e1 := by
    intro hcon
    rw [hcon, h1] at h3
    exact h4 (Option.some.inj h3)
  rw [remove_eq h1 h2] at hr
  obtain rfl := Option.some.inj hr
  have hmap : fdel (fset l.entity_to_component_index_ e2 i) e1 e2 = some i := by
    simp [fdel, fset, hne]
  refine ⟨rfl, by simp, hmap, ?_, ?_, ?_⟩
  · show fdel (fset l.component_index_to_entity_ i e2)
      (l.next_component_index_ - 1) i = some e2
    simp [fdel, fset, h4]
  · show ComponentList.Get e2 _ = _
    simp [ComponentList.Get, hmap]
  · simp [ComponentList.Get, hmap, h3]

/-- The two-entity store used by the C7 witness: insert entity 1 with value
10, then entity 2 with value 20. -/
def lC7 : ComponentList Nat :=
  (applyOps [CLOp.ins 1 10, CLOp.ins 2 20] (clInit : ComponentList Nat)).getD
    clInit

/-- The store after the C7 witness removal of entity 1. -/
def lC7r : ComponentList Nat :=
  (ComponentList.Remove 1 lC7).getD lC7

/-- Witness for C7: in the concrete two-entity store, removing entity 1 (not
the last-inserted) relocates entity 2 to slot 0 and `Get 2` still returns
20. -/
theorem c7_swap_remove_witness :
    lC7.entity_to_component_index_ 1 = some 0 ∧
    lC7.component_index_to_entity_ (lC7.next_component_index_ - 1) =
      some 2 ∧
    (lC7r.next_component_index_ = lC7.next_component_index_ - 1 ∧
      lC7r.components_ 0 = lC7.components_ (lC7.next_component_index_ - 1) ∧
      lC7r.entity_to_component_index_ 2 = some 0 ∧
      lC7r.component_index_to_entity_ 0 = some 2 ∧
      ComponentList.Get 2 lC7r =
        some (lC7.components_ (lC7.next_component_index_ - 1)) ∧
      ComponentList.Get 2 lC7r = ComponentList.Get 2 lC7) :=
  ⟨rfl, rfl,
    (c7_swap_remove lC7 lC7r 1 2 0 rfl rfl rfl (by decide) rfl).2.2.2.2.1 ▸
      c7_swap_remove lC7 lC7r 1 2 0 rfl rfl rfl (by decide) rfl⟩

/-- Counterexample for C4: on a fresh entity manager, no entity ID has ever
been issued by `CreateEntity`, yet `DestroyEntity 0` succeeds — the code
only checks `entity >= kMaxEntities` and does not track whether the ID is
currently checked out.  The claim says a never-issued ID must fail with
`OutOfRange`. -/
theorem c4_stale_id_cex :
    (EntityManager.DestroyEntity 0 emInit).isSome = true := rfl

/-- C4 (amended): `DestroyEntity` fails with `OutOfRange` exactly for IDs
`≥ kMaxEntities`; for every ID below the bound — issued or not — it
succeeds, resets that ID's signature to empty, pushes the ID onto the pool
queue, and changes no other signature. -/
theorem c4_destroy_range (m : EntityManager) (entity : Nat) :
    (kMaxEntities ≤ entity → EntityManager.DestroyEntity entity m = none) ∧
    (entity < kMaxEntities →
      EntityManager.DestroyEntity entity m =
        some
          { available_entities_ := m.available_entities_ ++ [entity]
            entity_signatures_ := fun e2 =>
              if e2 = entity then 0 else m.entity_signatures_ e2 } ∧
      ∀ m2, EntityManager.DestroyEntity entity m = some m2 →
        m2.entity_signatures_ entity = 0 ∧
        m2.available_entities_ = m.available_entities_ ++ [entity] ∧
        ∀ e2, e2 ≠ entity →
          m2.entity_signatures_ e2 = m.entity_signatures_ e2) := by
  constructor
  · intro hge
    simp [EntityManager.DestroyEntity, EntityManager.CheckEntityOutOfBound,
      hge]
  · intro hlt
    have hnb : EntityManager.CheckEntityOutOfBound entity = false := by
      simp [EntityManager.CheckEntityOutOfBound]
      omega
    constructor
    · simp [EntityManager.DestroyEntity, hnb]
    · intro m2 h2
      simp [EntityManager.DestroyEntity, hnb] at h2
      subst h2
      refine ⟨by simp, rfl, ?_⟩
      intro e2 he2
      simp [he2]

/-- Witness for C4 (amended): `DestroyEntity 70000` fails on the fresh
manager, and `DestroyEntity 3` succeeds on it with the described state. -/
theorem c4_destroy_range_witness :
    EntityManager.DestroyEntity 70000 emInit = none ∧
    (EntityManager.DestroyEntity 3 emInit =
        some
          { available_entities_ := emInit.available_entities_ ++ [3]
            entity_signatures_ := fun e2 =>
              if e2 = 3 then 0 else emInit.entity_signatures_ e2 } ∧
      ∀ m2, EntityManager.DestroyEntity 3 emInit = some m2 →
        m2.entity_signatures_ 3 = 0 ∧
        m2.available_entities_ = emInit.available_entities_ ++ [3] ∧
        ∀ e2, e2 ≠ 3 →
          m2.entity_signatures_ e2 = emInit.entity_signatures_ e2) :=
  ⟨(c4_destroy_range emInit 70000).1 (by decide),
    (c4_destroy_range emInit 3).2 (by decide)⟩

/-- Runs `Engine::CreateEntity` `k` times from a given engine state,
failing as soon as one call fails. -/
def createN {V : Type} : Nat → Engine V → Option (Engine V)
  | 0, g => some g
  | k + 1, g =>
    match createN k g with
    | none => none
    | some g2 =>
      match Engine.CreateEntity g2 with
      | none => none
      | some p => some p.2

/-- One-step unfolding of `createN`. -/
theorem createN_succ {V : Type} (k : Nat) (g : Engine V) :
    createN (k + 1) g =
      match createN k g with
      | none => none
      | some g2 =>
        match Engine.CreateEntity g2 with
        | none => none
        | some p => some p.2 := rfl

/-- Each successful `CreateEntity` pops exactly one ID from the pool. -/
theorem createN_len {V : Type} :
    ∀ (k : Nat) (g : Engine V),
      k ≤ g.entity_manager_.available_entities_.length →
      ∃ g2, createN k g = some g2 ∧
        g2.entity_manager_.available_entities_.length =
          g.entity_manager_.available_entities_.length - k := by
  intro k
  induction k with
  | zero => intro g _; exact ⟨g, rfl, by simp [createN]⟩
  | succ k ih =>
    intro g hk
    obtain ⟨g2, hg2, hlen⟩ := ih g (by omega)
    have hpos : 0 < g2.entity_manager_.available_entities_.length := by
      omega
    cases hq : g2.entity_manager_.available_entities_ with
    | nil => rw [hq] at hpos; simp at hpos
    | cons e rest =>
      refine ⟨{ g2 with entity_manager_ :=
        { g2.entity_manager_ with available_entities_ := rest } }, ?_, ?_⟩
      · simp only [createN, hg2]
        simp [Engine.CreateEntity, EntityManager.CreateEntity, hq]
      · show rest.length =
          g.entity_manager_.available_entities_.length - (k + 1)
        rw [hq] at hlen
        simp at hlen
        omega

/-- A `CreateEntity` call on a state with an empty pool fails. -/
theorem createN_fail {V : Type} (g : Engine V)
    (h : g.entity_manager_.available_entities_.length = 0) :
    Engine.CreateEntity g = none := by
  cases hq : g.entity_manager_.available_entities_ with
  | nil => simp [Engine.CreateEntity, EntityManager.CreateEntity, hq]
  | cons e rest => rw [hq] at h; simp at h

/-- C6: starting from the fresh engine, each of the first `kMaxEntities`
`CreateEntity` calls succeeds, and the `(kMaxEntities + 1)`-th call is
exactly the first one that fails (the pool is empty at that point). -/
theorem c6_capacity_boundary {V : Type} :
    (∀ k, k ≤ kMaxEntities →
      (createN k (engineInit : Engine V)).isSome = true) ∧
    createN (kMaxEntities + 1) (engineInit : Engine V) = none := by
  have hlen : (engineInit : Engine V).entity_manager_.available_entities_.length =
      kMaxEntities := by
    simp [engineInit, emInit]
  constructor
  · intro k hk
    obtain ⟨g2, hg2, _⟩ := createN_len k (engineInit : Engine V)
      (by rw [hlen]; exact hk)
    simp [hg2]
  · obtain ⟨g2, hg2, hl2⟩ := createN_len kMaxEntities (engineInit : Engine V)
      (by rw [hlen])
    have hz : g2.entity_manager_.available_entities_.length = 0 := by
      rw [hl2, hlen]; omega
    rw [createN_succ, hg2]
    show (match Engine.CreateEntity g2 with
      | none => none
      | some p => some p.2) = none
    rw [createN_fail g2 hz]

/-- Witness for C6: the bound `2 ≤ kMaxEntities` holds and two creations
from the fresh engine succeed. -/
theorem c6_capacity_boundary_witness :
    (createN 2 (engineInit : Engine Nat)).isSome = true :=
  (c6_capacity_boundary (V := Nat)).1 2 (by decide)

/-- The component manager obtained by registering `kMaxComponents + 1`
distinct component types on a fresh manager. -/
def cm65 : ComponentManager Nat :=
  (List.range (kMaxComponents + 1)).foldl
    (fun m t => ComponentManager.RegisterComponent t m) cmInit

set_option maxRecDepth 40000 in
/-- C5 (exhibiting the code bug): `RegisterComponent` performs no check
against `kMaxComponents`, so registering a 65th distinct component type
succeeds: the manager ends up with 65 registered types and the 65th type is
assigned `ComponentType` 64, which is not a valid bit index into a
64-bit `Signature` (`sigSet` on bit 64 fails).  The claim states that a
65th distinct registration cannot succeed. -/
theorem c5_register_overflow :
    cm65.component_types_.length = kMaxComponents + 1 ∧
    ComponentManager.GetComponentType kMaxComponents cm65 =
      some kMaxComponents ∧
    sigSet 0 kMaxComponents true = none := by decide

/-- `msetA` stores the assigned value at the assigned key. -/
theorem lookupA_msetA_self {α : Type} :
    ∀ (m : List (Nat × α)) (k : Nat) (v : α),
      lookupA (msetA m k v) k = some v := by
  intro m
  induction m with
  | nil => intro k v; simp [msetA, lookupA]
  | cons p rest ih =>
    intro k v
    by_cases hk : k = p.1
    · simp [msetA, lookupA, hk]
    · simp only [msetA]
      rw [if_neg (by exact fun hc => hk (by rw [hc]))]
      simp only [lookupA]
      rw [if_neg hk]
      exact ih k v

/-- Erasing an entity from every system is the identity when no system
holds it. -/
theorem map_erase_id (e : Entity) :
    ∀ (xs : List (TypeKey × System)),
      (∀ p, p ∈ xs → e ∉ p.2.entities_) →
      xs.map (fun p => ((p.1 : TypeKey),
        ({ entities_ := p.2.entities_.erase e } : System))) = xs := by
  intro xs
  induction xs with
  | nil => intro _; rfl
  | cons p rest ih =>
    intro h
    have hp : e ∉ p.2.entities_ := h p (by simp)
    have hrest := ih (fun q hq => h q (by simp [hq]))
    simp only [List.map_cons, hrest]
    rw [Finset.erase_eq_of_not_mem hp]

/-- C8: the `EntityWasDestroyed` hooks tolerate an absent entity: on a store
that does not hold the entity the hook returns the store unchanged, and the
system-manager broadcast leaves every system untouched when no system holds
the entity (and in general leaves any non-holding system's entity set
unchanged). -/
theorem c8_teardown_noop {V : Type} (l : ComponentList V) (entity : Entity)
    (sm : SystemManager) :
    (l.entity_to_component_index_ entity = none →
      ComponentList.EntityWasDestroyed entity l = l) ∧
    ((∀ p, p ∈ sm.systems_ → entity ∉ p.2.entities_) →
      SystemManager.EntityWasDestroyed entity sm = sm) ∧
    (∀ t s, (t, s) ∈ sm.systems_ → entity ∉ s.entities_ →
      (t, s) ∈ (SystemManager.EntityWasDestroyed entity sm).systems_) := by
  refine ⟨?_, ?_, ?_⟩
  · intro h
    simp [ComponentList.EntityWasDestroyed, h]
  · intro h
    show { sm with
        systems_ := sm.systems_.map
          (fun p => (p.1, { entities_ := p.2.entities_.erase entity })) } = sm
    rw [map_erase_id entity sm.systems_ h]
  · intro t s hmem hnot
    show (t, s) ∈ sm.systems_.map
      (fun p => (p.1, ({ entities_ := p.2.entities_.erase entity } : System)))
    have : ((t, s) : TypeKey × System) =
        (fun p => ((p.1 : TypeKey),
          ({ entities_ := p.2.entities_.erase entity } : System))) (t, s) := by
      show (t, s) = (t, ({ entities_ := s.entities_.erase entity } : System))
      rw [Finset.erase_eq_of_not_mem hnot]
    rw [this]
    exact List.mem_map_of_mem _ hmem

/-- The concrete system manager used by the C8/C9 witnesses: one registered
system of type key 0 whose entity set is `{3}`. -/
def smW : SystemManager :=
  { systems_ := [(0, { entities_ := ({3} : Finset Entity) })]
    system_signatures_ := [] }

/-- Witness for C8: entity 5 is neither in the fresh store nor in `smW`'s
single system, and both hooks leave the state unchanged. -/
theorem c8_teardown_noop_witness :
    ComponentList.EntityWasDestroyed 5 (clInit : ComponentList Nat) =
        clInit ∧
      SystemManager.EntityWasDestroyed 5 smW = smW :=
  ⟨(c8_teardown_noop (clInit : ComponentList Nat) 5 smW).1 rfl,
    (c8_teardown_noop (clInit : ComponentList Nat) 5 smW).2.1 (by decide)⟩

/-- C9: `SetSystemSignature` only records the new signature: on success the
systems map — and with it every system's entity set — is unchanged, and the
signature map now stores the new signature for that system type. -/
theorem c9_set_signature_frame (sm sm2 : SystemManager) (t : TypeKey)
    (signature : Signature)
    (h : SystemManager.SetSystemSignature t signature sm = some sm2) :
    sm2.systems_ = sm.systems_ ∧
    lookupA sm2.system_signatures_ t = some signature := by
  cases hc : (lookupA sm.systems_ t).isSome with
  | false => simp [SystemManager.SetSystemSignature, hc] at h
  | true =>
    simp only [SystemManager.SetSystemSignature, hc, if_pos] at h
    obtain rfl := Option.some.inj h
    exact ⟨rfl, lookupA_msetA_self sm.system_signatures_ t signature⟩

/-- The system manager reached by the C9 witness call. -/
def smW2 : SystemManager :=
  (SystemManager.SetSystemSignature 0 5 smW).getD smInit

/-- Witness for C9: setting signature 5 on `smW`'s registered system type 0
succeeds, leaves the system (and its entity set `{3}`) unchanged, and
records the signature. -/
theorem c9_set_signature_frame_witness :
    SystemManager.SetSystemSignature 0 5 smW = some smW2 ∧
    (smW2.systems_ = smW.systems_ ∧
      lookupA smW2.system_signatures_ 0 = some 5) :=
  ⟨rfl, c9_set_signature_frame smW smW2 0 5 rfl⟩

/-- C10: for a component type that was never registered, `HasComponent`
does not answer `false` — it fails (`none`, C++ throws the
`UnregisteredType` error from `GetComponentType`), because the type's bit is
looked up before the entity's signature is ever read. -/
theorem c10_hascomponent_unregistered {V : Type} (g : Engine V)
    (t : TypeKey) (entity : Entity)
    (h : lookupA g.component_manager_.component_types_ t = none) :
    Engine.HasComponent t entity g = none := by
  simp [Engine.HasComponent, ComponentManager.GetComponentType, h]

/-- Witness for C10: on the fresh engine no type is registered, and
`HasComponent` for type 0 and entity 0 fails rather than returning
`false`. -/
theorem c10_hascomponent_unregistered_witness :
    Engine.HasComponent 0 0 (engineInit : Engine Nat) = none :=
  c10_hascomponent_unregistered (engineInit : Engine Nat) 0 0 rfl

/-- The system signature a system is matched against: the stored one, or the
empty signature for a system whose signature was never set (matching the
`operator[]` default-insert in `EntitySignatureChanged`). -/
def sigOfD (sm : SystemManager) (t : TypeKey) : Signature :=
  (lookupA sm.system_signatures_ t).getD 0

/-- `fgetA` yields exactly the value that the map subsequently stores. -/
theorem lookupA_fgetA_self {α : Type} (m : List (Nat × α)) (k : Nat)
    (d : α) : lookupA (fgetA m k d).2 k = some (fgetA m k d).1 := by
  cases hl : lookupA m k with
  | some v => simp [fgetA, hl]
  | none => simp [fgetA, hl, lookupA]

/-- `fgetA` preserves every binding already present in the map. -/
theorem fgetA_preserve {α : Type} {m : List (Nat × α)} {k2 : Nat} {v : α}
    (k : Nat) (d : α) (h : lookupA m k2 = some v) :
    lookupA (fgetA m k d).2 k2 = some v := by
  cases hl : lookupA m k with
  | some w => simp [fgetA, hl, h]
  | none =>
    have hk : k2 ≠ k := by
      intro hc
      rw [hc, hl] at h
      exact Option.noConfusion h
    simp [fgetA, hl, lookupA, hk, h]

/-- The loop of `EntitySignatureChanged` only ever default-inserts into the
signature map: existing bindings survive. -/
theorem escGo_sig_preserve (e : Entity) (esig : Signature) :
    ∀ (sys : List (TypeKey × System)) (sigs : List (TypeKey × Signature))
      (k : Nat) (v : Signature),
      lookupA sigs k = some v →
      lookupA (escGo e esig sys sigs).2 k = some v := by
  intro sys
  induction sys with
  | nil => intro sigs k v h; simpa [escGo] using h
  | cons p rest ih =>
    intro sigs k v h
    obtain ⟨t0, s0⟩ := p
    simp only [escGo]
    exact ih (fgetA sigs t0 0).2 k v (fgetA_preserve t0 0 h)

/-- After the loop of `EntitySignatureChanged`, a system is associated to
the entity exactly when the entity's broadcast signature contains all bits
of the signature finally stored for that system. -/
theorem escGo_mem (e : Entity) (esig : Signature) :
    ∀ (sys : List (TypeKey × System)) (sigs : List (TypeKey × Signature))
      (t : TypeKey) (s : System),
      lookupA (escGo e esig sys sigs).1 t = some s →
      (e ∈ s.entities_ ↔
        esig &&& (lookupA (escGo e esig sys sigs).2 t).getD 0 =
          (lookupA (escGo e esig sys sigs).2 t).getD 0) := by
  intro sys
  induction sys with
  | nil => intro sigs t s h; simp [escGo, lookupA] at h
  | cons p rest ih =>
    intro sigs t s h
    obtain ⟨t0, s0⟩ := p
    simp only [escGo, lookupA] at h ⊢
    by_cases ht : t = t0
    · rw [if_pos ht] at h
      obtain rfl := Option.some.inj h
      have hsig : lookupA (escGo e esig rest (fgetA sigs t0 0).2).2 t =
          some (fgetA sigs t0 0).1 := by
        rw [ht]
        exact escGo_sig_preserve e esig rest (fgetA sigs t0 0).2 t0
          (fgetA sigs t0 0).1 (lookupA_fgetA_self sigs t0 0)
      rw [hsig]
      by_cases hc : esig &&& (fgetA sigs t0 0).1 = (fgetA sigs t0 0).1
      · simp [hc]
      · simp [hc]
    · rw [if_neg ht] at h
      exact ih (fgetA sigs t0 0).2 t s h

/-- `SystemManager.EntitySignatureChanged` establishes the membership
condition of C2 for the broadcast entity, for every registered system. -/
theorem esc_post (e : Entity) (esig : Signature) (sm : SystemManager)
    (t : TypeKey) (s : System)
    (h : lookupA
      (SystemManager.EntitySignatureChanged e esig sm).systems_ t = some s) :
    e ∈ s.entities_ ↔
      esig &&& sigOfD (SystemManager.EntitySignatureChanged e esig sm) t =
        sigOfD (SystemManager.EntitySignatureChanged e esig sm) t :=
  escGo_mem e esig sm.systems_ sm.system_signatures_ t s h

/-- After the destroy broadcast every system's set excludes the entity. -/
theorem erase_map_not_mem (e : Entity) :
    ∀ (xs : List (TypeKey × System)) (t : TypeKey) (s : System),
      lookupA (xs.map (fun p => ((p.1 : TypeKey),
        ({ entities_ := p.2.entities_.erase e } : System)))) t = some s →
      e ∉ s.entities_ := by
  intro xs
  induction xs with
  | nil => intro t s h; simp [lookupA] at h
  | cons p rest ih =>
    intro t s h
    simp only [List.map_cons, lookupA] at h
    by_cases ht : t = p.1
    · rw [if_pos ht] at h
      obtain rfl := Option.some.inj h
      exact Finset.not_mem_erase e _
    · rw [if_neg ht] at h
      exact ih t s h

/-- `SetSignature` stores exactly the given signature for the entity. -/
theorem setSignature_post {entity : Nat} {sig : Signature}
    {m m2 : EntityManager}
    (h : EntityManager.SetSignature entity sig m = some m2) :
    m2.entity_signatures_ entity = sig := by
  cases hb : EntityManager.CheckEntityOutOfBound entity with
  | true => simp [EntityManager.SetSignature, hb] at h
  | false =>
    simp only [EntityManager.SetSignature, hb, Bool.false_eq_true,
      if_false] at h
    obtain rfl := Option.some.inj h
    simp

/-- Shape of a successful `Engine::AddComponent`: the new signature is
stored for the entity and broadcast unchanged to the system manager. -/
theorem engine_add_ok {V : Type} [Inhabited V] {t : TypeKey}
    {entity : Entity} {component : V} {g g2 : Engine V}
    (h : Engine.AddComponent t entity component g = Except.ok g2) :
    ∃ sig2,
      g2.entity_manager_.entity_signatures_ entity = sig2 ∧
      g2.system_manager_ =
        SystemManager.EntitySignatureChanged entity sig2
          g.system_manager_ := by
  unfold Engine.AddComponent at h
  split at h
  · exact absurd h (by simp)
  · split at h
    · exact absurd h (by simp)
    · split at h
      · exact absurd h (by simp)
      · split at h
        · exact absurd h (by simp)
        · split at h
          · exact absurd h (by simp)
          · rename_i em2 hem
            obtain rfl := Except.ok.inj h
            exact ⟨_, setSignature_post hem, rfl⟩

/-- Shape of a successful `Engine::RemoveComponent`: mirror of
`engine_add_ok`. -/
theorem engine_remove_ok {V : Type} {t : TypeKey} {entity : Entity}
    {g g2 : Engine V}
    (h : Engine.RemoveComponent t entity g = Except.ok g2) :
    ∃ sig2,
      g2.entity_manager_.entity_signatures_ entity = sig2 ∧
      g2.system_manager_ =
        SystemManager.EntitySignatureChanged entity sig2
          g.system_manager_ := by
  unfold Engine.RemoveComponent at h
  split at h
  · exact absurd h (by simp)
  · split at h
    · exact absurd h (by simp)
    · split at h
      · exact absurd h (by simp)
      · split at h
        · exact absurd h (by simp)
        · split at h
          · exact absurd h (by simp)
          · rename_i em2 hem
            obtain rfl := Except.ok.inj h
            exact ⟨_, setSignature_post hem, rfl⟩

/-- Shape of a successful `Engine::DestroyEntity`: the destroy broadcast
reaches the system manager. -/
theorem engine_destroy_ok {V : Type} {entity : Entity} {g g2 : Engine V}
    (h : Engine.DestroyEntity entity g = Except.ok g2) :
    g2.system_manager_ =
      SystemManager.EntityWasDestroyed entity g.system_manager_ := by
  unfold Engine.DestroyEntity at h
  split at h
  · exact absurd h (by simp)
  · obtain rfl := Except.ok.inj h
    rfl

/-- C2: immediately after a successful `Engine::AddComponent` or
`Engine::RemoveComponent` on an entity, the entity is a member of a
registered system's set exactly when the bitwise AND of its stored signature
with the system's signature equals the system's signature; and immediately
after `Engine::DestroyEntity` the entity belongs to no system's set. -/
theorem c2_signature_system_consistency {V : Type} [Inhabited V]
    (g g2 : Engine V) (t : TypeKey) (entity : Entity) (component : V) :
    ((Engine.AddComponent t entity component g = Except.ok g2 ∨
      Engine.RemoveComponent t entity g = Except.ok g2) →
      ∀ t2 s, lookupA g2.system_manager_.systems_ t2 = some s →
        (entity ∈ s.entities_ ↔
          g2.entity_manager_.entity_signatures_ entity &&&
              sigOfD g2.system_manager_ t2 =
            sigOfD g2.system_manager_ t2)) ∧
    (Engine.DestroyEntity entity g = Except.ok g2 →
      ∀ t2 s, lookupA g2.system_manager_.systems_ t2 = some s →
        entity ∉ s.entities_) := by
  constructor
  · intro hok t2 s hs
    obtain ⟨sig2, hsig, hsm⟩ :=
      hok.elim (fun h => engine_add_ok h) (fun h => engine_remove_ok h)
    rw [hsig, hsm]
    rw [hsm] at hs
    exact esc_post entity sig2 g.system_manager_ t2 s hs
  · intro hok t2 s hs
    rw [engine_destroy_ok hok] at hs
    exact erase_map_not_mem entity g.system_manager_.systems_ t2 s hs

/-- The engine used by the C2 witness: fresh engine with one registered
system of type key 0 (signature never set). -/
def gW1 : Engine Nat :=
  { engineInit with
    system_manager_ :=
      (SystemManager.RegisterSystem 0 { entities_ := ∅ } smInit).getD smInit }

/-- The engine reached by the C2 witness call
`AddComponent 0 5 42 gW1`. -/
def gW2 : Engine Nat :=
  match Engine.AddComponent 0 5 42 gW1 with
  | Except.ok g2 => g2
  | Except.error g2 => g2

/-- The system stored under type key 0 after the C2 witness call. -/
def esW : System :=
  (lookupA gW2.system_manager_.systems_ 0).getD { entities_ := ∅ }

/-- Witness for C2: adding component type 0 to entity 5 on `gW1` succeeds,
the registered system is found, and the membership condition holds for
entity 5. -/
theorem c2_signature_system_consistency_witness :
    Engine.AddComponent 0 5 (42 : Nat) gW1 = Except.ok gW2 ∧
    lookupA gW2.system_manager_.systems_ 0 = some esW ∧
    (5 ∈ esW.entities_ ↔
      gW2.entity_manager_.entity_signatures_ 5 &&&
          sigOfD gW2.system_manager_ 0 =
        sigOfD gW2.system_manager_ 0) :=
  ⟨rfl, rfl,
    (c2_signature_system_consistency gW1 gW2 0 5 42).1 (Or.inl rfl) 0 esW
      rfl⟩

/-- The engine state left behind by the failing C3 call
`AddComponent 0 70000 42` on the fresh engine (entity 70000 is out of
range, so `GetSignature` throws after the store insert already happened). -/
def gC3e : Engine Nat :=
  match Engine.AddComponent 0 70000 42 (engineInit : Engine Nat) with
  | Except.ok g2 => g2
  | Except.error g2 => g2

/-- The store for type key 0 in the failed-call state `gC3e`. -/
def c3list : ComponentList Nat :=
  (lookupA gC3e.component_manager_.component_lists_ 0).getD clInit

/-- Counterexample for C3: `AddComponent 0 70000 42` on the fresh engine
fails (the entity exceeds `kMaxEntities`, so `GetSignature` throws), yet the
failed call does not leave the engine unchanged: component type 0 is newly
registered and entity 70000 now sits in type 0's store.  The store is
mutated before the entity-range check, so the failure aborts with a partial
mutation. -/
theorem c3_partial_mutation_cex :
    Engine.AddComponent 0 70000 (42 : Nat) (engineInit : Engine Nat) =
      Except.error gC3e ∧
    lookupA
      (engineInit : Engine Nat).component_manager_.component_types_ 0 =
      none ∧
    lookupA gC3e.component_manager_.component_types_ 0 = some 0 ∧
    c3list.entity_to_component_index_ 70000 = some 0 := by
  refine ⟨rfl, rfl, rfl, rfl⟩

/-- C3 (amended): a failed `AddComponent`, `RemoveComponent` or
`DestroyEntity` never adjusts entity signatures or system entity sets (the
entity manager and system manager are exactly as before), and a failed
`DestroyEntity` changes nothing at all; but a failure occurring after the
component-store step (entity ID out of range, or component bit out of
signature range) leaves the store mutation in place, so the component
manager is not always restored. -/
theorem c3_failure_frame {V : Type} [Inhabited V] (g g2 : Engine V)
    (t : TypeKey) (entity : Entity) (component : V) :
    (Engine.AddComponent t entity component g = Except.error g2 →
      g2.entity_manager_ = g.entity_manager_ ∧
      g2.system_manager_ = g.system_manager_) ∧
    (Engine.RemoveComponent t entity g = Except.error g2 →
      g2.entity_manager_ = g.entity_manager_ ∧
      g2.system_manager_ = g.system_manager_) ∧
    (Engine.DestroyEntity entity g = Except.error g2 → g2 = g) := by
  refine ⟨?_, ?_, ?_⟩
  · intro h
    unfold Engine.AddComponent at h
    split at h
    · obtain rfl := Except.error.inj h; exact ⟨rfl, rfl⟩
    · split at h
      · obtain rfl := Except.error.inj h; exact ⟨rfl, rfl⟩
      · split at h
        · obtain rfl := Except.error.inj h; exact ⟨rfl, rfl⟩
        · split at h
          · obtain rfl := Except.error.inj h; exact ⟨rfl, rfl⟩
          · split at h
            · obtain rfl := Except.error.inj h; exact ⟨rfl, rfl⟩
            · exact absurd h (by simp)
  · intro h
    unfold Engine.RemoveComponent at h
    split at h
    · obtain rfl := Except.error.inj h; exact ⟨rfl, rfl⟩
    · split at h
      · obtain rfl := Except.error.inj h; exact ⟨rfl, rfl⟩
      · split at h
        · obtain rfl := Except.error.inj h; exact ⟨rfl, rfl⟩
        · split at h
          · obtain rfl := Except.error.inj h; exact ⟨rfl, rfl⟩
          · split at h
            · obtain rfl := Except.error.inj h; exact ⟨rfl, rfl⟩
            · exact absurd h (by simp)
  · intro h
    unfold Engine.DestroyEntity at h
    split at h
    · exact (Except.error.inj h).symm
    · exact absurd h (by simp)

/-- Witness for C3 (amended): the failing call of the counterexample leaves
the entity manager and the system manager untouched. -/
theorem c3_failure_frame_witness :
    Engine.AddComponent 0 70000 (42 : Nat) (engineInit : Engine Nat) =
      Except.error gC3e ∧
    gC3e.entity_manager_ = (engineInit : Engine Nat).entity_manager_ ∧
    gC3e.system_manager_ = (engineInit : Engine Nat).system_manager_ :=
  ⟨rfl, (c3_failure_frame (engineInit : Engine Nat) gC3e 0 70000 42).1 rfl⟩
